import Mathlib

/-!
Shallow embedding of the receipt-extraction pipeline of the
Personal-Finance-Assistant repository:

* backend/src/services/ocrService.js      (heuristic tier and orchestrator)
* backend/src/services/geminiOCRService.js (vision tier)
* backend/src/controllers/receiptController.js (lifecycle, attempts)
* backend/src/models/Receipt.js           (schema bounds)

Texts are lists of characters; JS regular expressions used by the code are
embedded as explicit scanners with the same greedy/backtracking behaviour on
the character classes they use.  JS numbers are modelled as rationals and
JS Date values at day granularity (year, 0-based month, day) with the civil
day-count used for comparisons; the wall clock read by the code
through Date constructors is passed explicitly as a parameter.
-/

namespace PFA

/-! ### Character helpers (JS semantics) -/

/-- Digit test, the JS regex class of decimal digits. -/
def isDigitJS (c : Char) : Bool := decide ('0' ≤ c ∧ c ≤ '9')

/-- Whitespace test for the JS regex whitespace class, restricted to the ASCII
whitespace characters that can occur in the modelled inputs. -/
def isSpaceJS (c : Char) : Bool :=
  c = ' ' ∨ c = '\t' ∨ c = '\n' ∨ c = '\r' ∨ c = '\x0b' ∨ c = '\x0c'

/-- Code of the lower-cased character, used for case-insensitive matching. -/
def lowerNat (c : Char) : Nat :=
  if 65 ≤ c.toNat ∧ c.toNat ≤ 90 then c.toNat + 32 else c.toNat

/-- Case-insensitive character equality. -/
def eqCI (a b : Char) : Bool := lowerNat a = lowerNat b

/-- Letter test for the class of latin letters under the case-insensitive flag. -/
def isAlphaCI (c : Char) : Bool := decide (97 ≤ lowerNat c ∧ lowerNat c ≤ 122)

/-- Split a list into the maximal prefix satisfying the predicate and the rest
(greedy consumption of a character class). -/
def takeWhileSplit (p : Char → Bool) : List Char → List Char × List Char
  | [] => ([], [])
  | c :: t =>
    if p c then
      let s := takeWhileSplit p t
      (c :: s.1, s.2)
    else ([], c :: t)

/-- Case-insensitive test that the first list is a prefix of the second. -/
def startsWithCI : List Char → List Char → Bool
  | [], _ => true
  | _ :: _, [] => false
  | n :: ns, h :: hs => eqCI n h && startsWithCI ns hs

/-- Case-insensitive substring containment, the model of
JS lower-casing followed by an includes test with a lower-case needle. -/
def containsCI (needle : List Char) : List Char → Bool
  | [] => startsWithCI needle []
  | c :: hs => startsWithCI needle (c :: hs) || containsCI needle hs

/-- Match a fixed keyword case-insensitively at the head of the input,
returning the matched characters as written and the rest. -/
def matchKeywordCI : List Char → List Char → Option (List Char × List Char)
  | [], rest => some ([], rest)
  | _ :: _, [] => none
  | k :: ks, c :: cs =>
    if eqCI k c then
      (matchKeywordCI ks cs).map (fun m => (c :: m.1, m.2))
    else none

/-- JS split on the newline character. -/
def splitOnNL : List Char → List (List Char)
  | [] => [[]]
  | c :: t =>
    if c = '\n' then [] :: splitOnNL t
    else
      match splitOnNL t with
      | h :: r => (c :: h) :: r
      | [] => [[c]]

/-- JS trim: drop leading and trailing whitespace. -/
def trimJS (cs : List Char) : List Char :=
  ((cs.dropWhile isSpaceJS).reverse.dropWhile isSpaceJS).reverse

/-- Numeric value of a digit string. -/
def digitsToNat (ds : List Char) : Nat :=
  ds.foldl (fun n c => 10 * n + (c.toNat - 48)) 0

/-- Value of a matched amount group (digits, optional dot, fraction digits),
the exact rational denoted by the decimal numeral, as JS parseFloat computes
on such a group. -/
def parseFloatQ (cs : List Char) : ℚ :=
  let ip := takeWhileSplit isDigitJS cs
  match ip.2 with
  | '.' :: r2 =>
    let fp := takeWhileSplit isDigitJS r2
    mkRat (digitsToNat ip.1 * 10 ^ fp.1.length + digitsToNat fp.1) (10 ^ fp.1.length)
  | _ => (digitsToNat ip.1 : ℚ)

/-- JS parseFloat on an optional string: an absent string (reading past the
end of a match array) gives NaN, modelled as none; a string whose
leading characters do not form a number also gives NaN.  Exponent forms do
not occur in the strings this model ever parses. -/
def parseFloatOpt : Option (List Char) → Option ℚ
  | none => none
  | some cs =>
    let cs1 := cs.dropWhile isSpaceJS
    let signAndRest : Bool × List Char :=
      match cs1 with
      | '-' :: t => (true, t)
      | '+' :: t => (false, t)
      | _ => (false, cs1)
    let ip := takeWhileSplit isDigitJS signAndRest.2
    match ip.1, ip.2 with
    | [], '.' :: r2 =>
      let fp := takeWhileSplit isDigitJS r2
      if fp.1 = [] then none
      else
        let v : ℚ := mkRat (digitsToNat fp.1) (10 ^ fp.1.length)
        some (if signAndRest.1 then -v else v)
    | [], _ => none
    | _ :: _, '.' :: r2 =>
      let fp := takeWhileSplit isDigitJS r2
      let v : ℚ :=
        mkRat (digitsToNat ip.1 * 10 ^ fp.1.length + digitsToNat fp.1) (10 ^ fp.1.length)
      some (if signAndRest.1 then -v else v)
    | _ :: _, _ =>
      let v : ℚ := (digitsToNat ip.1 : ℚ)
      some (if signAndRest.1 then -v else v)

/-! ### Global regex scanning

JS matchAll with a global flag finds non-overlapping matches left to right,
resuming after the end of each match.  All patterns embedded here consume at
least one character on success, so fuel equal to the input length suffices. -/

/-- One pass of global matching: at each position try the matcher; on success
record the match and resume after it, otherwise advance one character. -/
def scanAux {α : Type} (f : List Char → Option (α × List Char)) :
    Nat → List Char → List α
  | 0, _ => []
  | _ + 1, [] => []
  | fuel + 1, c :: rest =>
    match f (c :: rest) with
    | some m => m.1 :: scanAux f fuel m.2
    | none => scanAux f fuel rest

/-- All matches of a pattern in a text, in order, non-overlapping. -/
def scanAll {α : Type} (f : List Char → Option (α × List Char)) (cs : List Char) :
    List α :=
  scanAux f cs.length cs

/-- Unanchored regex test: does the pattern match at some position. -/
def existsMatch {α : Type} (f : List Char → Option (α × List Char)) :
    List Char → Bool
  | [] => (f []).isSome
  | c :: rest => (f (c :: rest)).isSome || existsMatch f rest

/-! ### JS Date model

Dates at day granularity: year, 0-based month as the JS Date API exposes it,
and day of month.  Month and day are integers so that the non-normalised
constructor arguments used by isReasonableDate (month plus one, year minus
one) can be represented; toDays normalises them exactly as the JS Date
constructor does. -/

structure JSDate where
  year : ℤ
  month : ℤ
  day : ℤ
deriving DecidableEq, Repr

/-- Civil day count of a (possibly non-normalised) JS date, the day index of
its timestamp: month overflow carries into the year and day overflow into the
month, matching JS Date normalisation. -/
def toDays (dt : JSDate) : ℤ :=
  let y1 : ℤ := dt.year + (dt.month).fdiv 12
  let m : ℤ := (dt.month).emod 12 + 1
  let y : ℤ := if m ≤ 2 then y1 - 1 else y1
  let era : ℤ := y.fdiv 400
  let yoe : ℤ := y - era * 400
  let mp : ℤ := (m + 9).emod 12
  let doy : ℤ := (153 * mp + 2).fdiv 5 + dt.day - 1
  let doe : ℤ := yoe * 365 + yoe.fdiv 4 - yoe.fdiv 100 + doy
  era * 146097 + doe - 719468

/-- Gregorian leap-year test. -/
def isLeapYear (y : Nat) : Bool :=
  y % 4 = 0 && (y % 100 ≠ 0 || y % 400 = 0)

/-- Days in a (1-based) month. -/
def daysInMonth (y m : Nat) : Nat :=
  if m = 2 then (if isLeapYear y then 29 else 28)
  else if m = 4 ∨ m = 6 ∨ m = 9 ∨ m = 11 then 30
  else 31

/-- A calendar-valid date from 1-based components, as the JS Date string
parser validates slash- and dash-separated dates (an out-of-range month or
day yields an invalid date). -/
def validDate (y m d : Nat) : Option JSDate :=
  if 1 ≤ m ∧ m ≤ 12 ∧ 1 ≤ d ∧ d ≤ daysInMonth y m then
    some ⟨(y : ℤ), ((m : ℤ) - 1), (d : ℤ)⟩
  else none

/-! ### ocrService.js regex patterns

The amount patterns of extractTotalAmount and extractTaxAmount share the
shape keyword, optional colons and spaces, optional dollar sign, then one or
more digits, an optional dot and up to two fraction digits (the capture
group).  On these character classes the greedy scan below is equivalent to
the JS backtracking engine: once the keyword has matched, the gap classes
cannot overlap the digit class, so no backtracking can succeed where the
greedy scan fails. -/

/-- Take up to two digits greedily. -/
def takeUpTo2Digits : List Char → List Char × List Char
  | c1 :: c2 :: r =>
    if isDigitJS c1 then
      if isDigitJS c2 then ([c1, c2], r) else ([c1], c2 :: r)
    else ([], c1 :: c2 :: r)
  | [c1] => if isDigitJS c1 then ([c1], []) else ([], [c1])
  | [] => ([], [])

/-- Match the keyword-amount pattern at the head of the input.  Returns the
full match, the capture group and the rest of the input. -/
def tryKeyAmount (kw : List Char) (cs : List Char) :
    Option (List Char × List Char × List Char) :=
  match matchKeywordCI kw cs with
  | none => none
  | some (kwm, r1) =>
    let gap1 := takeWhileSplit (fun c => c = ':' || isSpaceJS c) r1
    let dollarAndRest : List Char × List Char :=
      match gap1.2 with
      | '$' :: t => (['$'], t)
      | _ => ([], gap1.2)
    let gap2 := takeWhileSplit isSpaceJS dollarAndRest.2
    let digits := takeWhileSplit isDigitJS gap2.2
    if digits.1 = [] then none
    else
      let dotAndRest : List Char × List Char :=
        match digits.2 with
        | '.' :: t => (['.'], t)
        | _ => ([], digits.2)
      let frac := takeUpTo2Digits dotAndRest.2
      let group := digits.1 ++ dotAndRest.1 ++ frac.1
      some (kwm ++ gap1.1 ++ dollarAndRest.1 ++ gap2.1 ++ group, group, frac.2)

/-- Split a whitespace run before its last line terminator: the pair of the
characters a greedy whitespace consumption keeps when an end-of-line
anchor must still match, and the rest starting at that terminator. -/
def splitAtLastNL : List Char → Option (List Char × List Char)
  | [] => none
  | c :: t =>
    match splitAtLastNL t with
    | some (a, b) => some (c :: a, b)
    | none => if c = '\n' ∨ c = '\r' then some ([], c :: t) else none

/-- Match whitespace followed by a multiline end-of-line anchor: consume the
longest whitespace prefix that leaves the position at the end of input or
before a line terminator.  Returns the consumed characters and the rest. -/
def matchTrailingEOL (cs : List Char) : Option (List Char × List Char) :=
  let w := takeWhileSplit isSpaceJS cs
  if w.2.isEmpty then some (w.1, [])
  else
    match splitAtLastNL w.1 with
    | some (a, b) => some (a, b ++ w.2)
    | none => none

/-- Match the line-anchored dollar amount pattern (dollar sign, optional
spaces, digits, dot, exactly two digits, trailing space and end of line) at
the head of the input.  Returns the full match, the group and the rest. -/
def tryDollarEOL (cs : List Char) : Option ((List Char × List Char) × List Char) :=
  match cs with
  | '$' :: r1 =>
    let sp := takeWhileSplit isSpaceJS r1
    let digits := takeWhileSplit isDigitJS sp.2
    if digits.1 = [] then none
    else
      match digits.2 with
      | '.' :: d1 :: d2 :: r4 =>
        if isDigitJS d1 && isDigitJS d2 then
          match matchTrailingEOL r4 with
          | some (w, rest) =>
            let group := digits.1 ++ '.' :: [d1, d2]
            some (('$' :: sp.1 ++ group ++ w, group), rest)
          | none => none
        else none
      | _ => none
  | _ => none

/-- Match the line-anchored plain amount pattern (digits, dot, exactly two
digits, trailing space and end of line) at the head of the input. -/
def tryPlainEOL (cs : List Char) : Option ((List Char × List Char) × List Char) :=
  let digits := takeWhileSplit isDigitJS cs
  if digits.1 = [] then none
  else
    match digits.2 with
    | '.' :: d1 :: d2 :: r4 =>
      if isDigitJS d1 && isDigitJS d2 then
        match matchTrailingEOL r4 with
        | some (w, rest) =>
          let group := digits.1 ++ '.' :: [d1, d2]
          some ((group ++ w, group), rest)
        | none => none
      else none
    | _ => none

/-- Separator class of the date patterns. -/
def isDateSep (c : Char) : Bool := c = '/' || c = '-'

/-- Match the first date pattern (one or two digits, separator, one or two
digits, separator, two to four digits).  A digit run longer than the bound
cannot match because the character after the bounded repetition must be a
separator; the scanner tries later positions itself. -/
def tryD1 (cs : List Char) : Option (List Char × List Char) :=
  let d1 := takeWhileSplit isDigitJS cs
  if d1.1.length = 0 ∨ d1.1.length > 2 then none
  else
    match d1.2 with
    | s1 :: r2 =>
      if isDateSep s1 then
        let d2 := takeWhileSplit isDigitJS r2
        if d2.1.length = 0 ∨ d2.1.length > 2 then none
        else
          match d2.2 with
          | s2 :: r4 =>
            if isDateSep s2 then
              let d3 := takeWhileSplit isDigitJS r4
              if d3.1.length < 2 then none
              else
                some (d1.1 ++ s1 :: d2.1 ++ s2 :: d3.1.take 4,
                      d3.1.drop 4 ++ d3.2)
            else none
          | [] => none
      else none
    | [] => none

/-- Match the second date pattern (exactly four digits, separator, one or two
digits, separator, one or two digits). -/
def tryD2 (cs : List Char) : Option (List Char × List Char) :=
  let d1 := takeWhileSplit isDigitJS cs
  if d1.1.length ≠ 4 then none
  else
    match d1.2 with
    | s1 :: r2 =>
      if isDateSep s1 then
        let d2 := takeWhileSplit isDigitJS r2
        if d2.1.length = 0 ∨ d2.1.length > 2 then none
        else
          match d2.2 with
          | s2 :: r4 =>
            if isDateSep s2 then
              let d3 := takeWhileSplit isDigitJS r4
              if d3.1.length = 0 then none
              else some (d1.1 ++ s1 :: d2.1 ++ s2 :: d3.1.take 2,
                         d3.1.drop 2 ++ d3.2)
            else none
          | [] => none
      else none
    | [] => none

/-- The twelve three-letter month keys of the third date pattern, with the
full month names the JS date parser accepts, 1-based month numbers. -/
def monthAbbrevs : List (List Char × List Char × Nat) :=
  [(['j','a','n'], ['j','a','n','u','a','r','y'], 1),
   (['f','e','b'], ['f','e','b','r','u','a','r','y'], 2),
   (['m','a','r'], ['m','a','r','c','h'], 3),
   (['a','p','r'], ['a','p','r','i','l'], 4),
   (['m','a','y'], ['m','a','y'], 5),
   (['j','u','n'], ['j','u','n','e'], 6),
   (['j','u','l'], ['j','u','l','y'], 7),
   (['a','u','g'], ['a','u','g','u','s','t'], 8),
   (['s','e','p'], ['s','e','p','t','e','m','b','e','r'], 9),
   (['o','c','t'], ['o','c','t','o','b','e','r'], 10),
   (['n','o','v'], ['n','o','v','e','m','b','e','r'], 11),
   (['d','e','c'], ['d','e','c','e','m','b','e','r'], 12)]

/-- Match the third date pattern (month abbreviation, trailing letters,
spaces, one or two digits, optional comma, spaces, four digits). -/
def tryD3 (cs : List Char) : Option (List Char × List Char) :=
  match monthAbbrevs.find? (fun t => startsWithCI t.1 cs) with
  | none => none
  | some _ =>
    let w := takeWhileSplit isAlphaCI cs
    let sp1 := takeWhileSplit isSpaceJS w.2
    if sp1.1 = [] then none
    else
      let dds := takeWhileSplit isDigitJS sp1.2
      if dds.1.length = 0 ∨ dds.1.length > 2 then none
      else
        let commaAndRest : List Char × List Char :=
          match dds.2 with
          | ',' :: t => ([','], t)
          | _ => ([], dds.2)
        let sp2 := takeWhileSplit isSpaceJS commaAndRest.2
        if sp2.1 = [] then none
        else
          let yds := takeWhileSplit isDigitJS sp2.2
          if yds.1.length < 4 then none
          else
            some (w.1 ++ sp1.1 ++ dds.1 ++ commaAndRest.1 ++ sp2.1 ++ yds.1.take 4,
                  yds.1.drop 4 ++ yds.2)

/-! ### parseDate (the JS Date string constructor on matched date strings) -/

/-- Interpret the three numeric components of a separated date string the way
the JS parser does: a leading component of three or more digits is a year
(year, month, day order); otherwise month, day, year order with two-digit
years expanded below fifty to 2000 and otherwise to 1900. -/
def mkDateFromComponents (a b c : List Char) : Option JSDate :=
  if 3 ≤ a.length then
    validDate (digitsToNat a) (digitsToNat b) (digitsToNat c)
  else
    let yraw := digitsToNat c
    let y := if c.length ≤ 2 then (if yraw ≤ 49 then 2000 + yraw else 1900 + yraw)
             else yraw
    validDate y (digitsToNat a) (digitsToNat b)

/-- Parse a fully numeric separated date string. -/
def parseNumericDate (cs : List Char) : Option JSDate :=
  let a := takeWhileSplit isDigitJS cs
  if a.1 = [] then none
  else
    match a.2 with
    | s1 :: r2 =>
      if isDateSep s1 then
        let b := takeWhileSplit isDigitJS r2
        if b.1 = [] then none
        else
          match b.2 with
          | s2 :: r4 =>
            if isDateSep s2 then
              let c := takeWhileSplit isDigitJS r4
              if c.1 ≠ [] ∧ c.2 = [] then mkDateFromComponents a.1 b.1 c.1
              else none
            else none
          | [] => none
      else none
    | [] => none

/-- Parse a month-name date string: the word must be a prefix of a full month
name of at least three letters, as the JS parser accepts. -/
def parseMonthNameDate (cs : List Char) : Option JSDate :=
  let w := takeWhileSplit isAlphaCI cs
  match monthAbbrevs.find? (fun t => 3 ≤ w.1.length && startsWithCI w.1 t.2.1) with
  | none => none
  | some t =>
    let sp1 := takeWhileSplit isSpaceJS w.2
    if sp1.1 = [] then none
    else
      let dds := takeWhileSplit isDigitJS sp1.2
      if dds.1 = [] then none
      else
        let commaAndRest : List Char :=
          match dds.2 with
          | ',' :: r => r
          | r => r
        let sp2 := commaAndRest.dropWhile isSpaceJS
        let yds := takeWhileSplit isDigitJS sp2
        if yds.1 ≠ [] ∧ yds.2 = [] then
          validDate (digitsToNat yds.1) t.2.2 (digitsToNat dds.1)
        else none

/-- The parseDate helper of ocrService: the JS Date constructor applied to a
matched date string, none when the result is an invalid date. -/
def parseDate (cs : List Char) : Option JSDate :=
  match cs with
  | [] => none
  | c :: _ => if isDigitJS c then parseNumericDate cs else parseMonthNameDate cs

/-! ### Canonical field shapes (the parsedData object) -/

/-- A string-valued extracted field. -/
structure ExtractedStr where
  value : String
  confidence : ℚ
deriving DecidableEq, Repr

/-- A numeric extracted field. -/
structure ExtractedAmount where
  value : ℚ
  confidence : ℚ
deriving DecidableEq, Repr

/-- The date field. -/
structure ExtractedDate where
  value : JSDate
  confidence : ℚ
deriving DecidableEq, Repr

/-- A line item; the quantity field only exists on items produced by the
vision tier. -/
structure Item where
  name : String
  quantity : Option ℚ
  price : ℚ
  confidence : ℚ
deriving DecidableEq, Repr

/-- The suggested-category field. -/
structure CategoryField where
  suggested : String
  confidence : ℚ
deriving DecidableEq, Repr

/-- The parsedData object; the subtotal key only exists on data produced by
the vision tier. -/
structure ParsedData where
  merchantName : ExtractedStr
  totalAmount : ExtractedAmount
  date : ExtractedDate
  items : List Item
  taxAmount : ExtractedAmount
  category : CategoryField
  paymentMethod : ExtractedStr
  subtotal : Option ExtractedAmount
deriving DecidableEq, Repr

/-! ### ocrService.js helper methods -/

/-- calculateMerchantConfidence of ocrService. -/
def calculateMerchantConfidence (name : List Char) (position : Nat) : ℚ :=
  min (mkRat (5 + (if position < 3 then 3 else 0)
    + (if 5 ≤ name.length ∧ name.length ≤ 30 then 2 else 0)) 10) 1

/-- calculateAmountConfidence of ocrService. -/
def calculateAmountConfidence (context : List Char) (patternIndex : Nat)
    (amount : ℚ) : ℚ :=
  min (mkRat (3 + (if patternIndex = 0 then 4 else 0)
    + (if containsCI ['t','o','t','a','l'] context then 3 else 0)
    + (if 1 ≤ amount ∧ amount ≤ 500 then 2 else 0)) 10) 1

/-- calculateDateConfidence of ocrService. -/
def calculateDateConfidence (patternIndex : Nat) : ℚ :=
  min (mkRat (4 + (if patternIndex = 0 then 3 else 0)) 10) 1

/-- calculateItemConfidence of ocrService. -/
def calculateItemConfidence (name : List Char) (price : ℚ) : ℚ :=
  min (mkRat (3 + (if 3 ≤ name.length ∧ name.length ≤ 30 then 2 else 0)
    + (if mkRat 1 2 ≤ price ∧ price ≤ 100 then 2 else 0)) 10) 1

/-- isReasonableDate of ocrService: at least the same day one year ago and at
most the same day one month ahead, both constructed from the processing-time
components exactly as the code builds them. -/
def isReasonableDate (now : JSDate) (dt : JSDate) : Bool :=
  let oneYearAgo := toDays ⟨now.year - 1, now.month, now.day⟩
  let oneMonthFuture := toDays ⟨now.year, now.month + 1, now.day⟩
  decide (oneYearAgo ≤ toDays dt ∧ toDays dt ≤ oneMonthFuture)

/-- isLikelyTotalLine of ocrService. -/
def isLikelyTotalLine (text : List Char) : Bool :=
  [['t','o','t','a','l'], ['a','m','o','u','n','t'],
   ['s','u','b','t','o','t','a','l'], ['t','a','x'],
   ['b','a','l','a','n','c','e']].any (fun w => containsCI w text)

/-- First test of isLikelyMerchantName: the line with whitespace removed is a
nonempty digit string. -/
def isAllDigitsNoSpace (line : List Char) : Bool :=
  let stripped := line.filter (fun c => !isSpaceJS c)
  !stripped.isEmpty && stripped.all isDigitJS

/-- Second test of isLikelyMerchantName: digits, whitespace, then at least
one letter or further whitespace (a street-address shape).  A whitespace run
of length at least two satisfies the trailing class itself. -/
def startsDigitsSpaceLetters (cs : List Char) : Bool :=
  let d := takeWhileSplit isDigitJS cs
  if d.1.isEmpty then false
  else
    let w := takeWhileSplit isSpaceJS d.2
    if w.1.isEmpty then false
    else
      2 ≤ w.1.length ||
        (match w.2 with
         | c :: _ => isAlphaCI c
         | [] => false)

/-- Third test of isLikelyMerchantName: the unanchored date-like pattern (one
to four digits, separator, one to four digits, separator, one to four
digits); the trailing bounded repetition has no follower, so it only needs
one digit. -/
def tryDateLike (cs : List Char) : Option (Unit × List Char) :=
  let d1 := takeWhileSplit isDigitJS cs
  if d1.1.length = 0 ∨ d1.1.length > 4 then none
  else
    match d1.2 with
    | s1 :: r2 =>
      if isDateSep s1 then
        let d2 := takeWhileSplit isDigitJS r2
        if d2.1.length = 0 ∨ d2.1.length > 4 then none
        else
          match d2.2 with
          | s2 :: r4 =>
            if isDateSep s2 then
              let d3 := takeWhileSplit isDigitJS r4
              if d3.1.isEmpty then none else some ((), d3.2)
            else none
          | [] => none
      else none
    | [] => none

/-- isLikelyMerchantName of ocrService. -/
def isLikelyMerchantName (line : List Char) : Bool :=
  if isAllDigitsNoSpace line then false
  else if startsDigitsSpaceLetters line then false
  else if existsMatch tryDateLike line then false
  else 3 ≤ line.length && line.length ≤ 50

/-! ### ocrService.js field extractors -/

/-- extractMerchantName loop: scan at most the first five nonempty lines. -/
def merchantScan : List (List Char) → Nat → ExtractedStr
  | [], _ => ⟨"", 0⟩
  | l :: rest, i =>
    if 5 ≤ i then ⟨"", 0⟩
    else if isLikelyMerchantName l then
      ⟨String.mk l, calculateMerchantConfidence l i⟩
    else merchantScan rest (i + 1)

/-- extractMerchantName of ocrService. -/
def extractMerchantName (text : List Char) : ExtractedStr :=
  let lines := ((splitOnNL text).map trimJS).filter (fun l => 0 < l.length)
  merchantScan lines 0

/-- An amount candidate collected by extractTotalAmount. -/
structure AmountCand where
  value : ℚ
  confidence : ℚ
deriving DecidableEq, Repr

/-- Descending-confidence comparison used by the candidate sorts; the
JS comparator sorts by confidence descending and the sort is stable. -/
def byConfDesc {α : Type} (key : α → ℚ) (a b : α) : Prop := key b ≤ key a

instance {α : Type} (key : α → ℚ) : DecidableRel (byConfDesc key) :=
  fun a b => inferInstanceAs (Decidable (key b ≤ key a))

instance {α : Type} (key : α → ℚ) : IsTotal α (byConfDesc key) :=
  ⟨fun a b => le_total (key b) (key a)⟩

instance {α : Type} (key : α → ℚ) : IsTrans α (byConfDesc key) :=
  ⟨fun _ _ _ h1 h2 => le_trans h2 h1⟩

/-- Candidates from the matches of one amount pattern: parse the group, keep
amounts strictly between zero and ten thousand, score by
calculateAmountConfidence on the full match. -/
def amountCandsOf (patternIndex : Nat) (ms : List (List Char × List Char)) :
    List AmountCand :=
  ms.filterMap fun m =>
    let amount := parseFloatQ m.2
    if 0 < amount ∧ amount < 10000 then
      some ⟨amount, calculateAmountConfidence m.1 patternIndex amount⟩
    else none

/-- Matches of a keyword amount pattern as (full, group) pairs. -/
def scanKeyAmount (kw : List Char) (cs : List Char) :
    List (List Char × List Char) :=
  scanAll (fun s => (tryKeyAmount kw s).map (fun t => ((t.1, t.2.1), t.2.2))) cs

/-- All amount candidates of extractTotalAmount in pattern order. -/
def collectAmounts (cs : List Char) : List AmountCand :=
  amountCandsOf 0 (scanKeyAmount ['t','o','t','a','l'] cs) ++
  amountCandsOf 1 (scanKeyAmount ['a','m','o','u','n','t'] cs) ++
  amountCandsOf 2 (scanKeyAmount ['b','a','l','a','n','c','e'] cs) ++
  amountCandsOf 3 (scanAll tryDollarEOL cs) ++
  amountCandsOf 4 (scanAll tryPlainEOL cs)

/-- extractTotalAmount of ocrService: collect candidates, sort by confidence
descending (stable) and take the first, or a zero result when none. -/
def extractTotalAmount (text : List Char) : ExtractedAmount :=
  match List.insertionSort (byConfDesc AmountCand.confidence)
      (collectAmounts text) with
  | [] => ⟨0, 0⟩
  | c :: _ => ⟨c.value, c.confidence⟩

/-- A date candidate collected by extractDate. -/
structure DateCand where
  value : JSDate
  confidence : ℚ
deriving DecidableEq, Repr

/-- Candidates from the matches of one date pattern: parse the match, keep
dates the plausibility window accepts, score by calculateDateConfidence. -/
def dateCandsOf (now : JSDate) (patternIndex : Nat) (ms : List (List Char)) :
    List DateCand :=
  ms.filterMap fun m =>
    match parseDate m with
    | some d =>
      if isReasonableDate now d then
        some ⟨d, calculateDateConfidence patternIndex⟩
      else none
    | none => none

/-- All date candidates of extractDate in pattern order. -/
def collectDates (now : JSDate) (cs : List Char) : List DateCand :=
  dateCandsOf now 0 (scanAll tryD1 cs) ++
  dateCandsOf now 1 (scanAll tryD2 cs) ++
  dateCandsOf now 2 (scanAll tryD3 cs)

/-- extractDate of ocrService: collect candidates, sort by confidence
descending and take the first, or the current date with zero confidence. -/
def extractDate (now : JSDate) (text : List Char) : ExtractedDate :=
  match List.insertionSort (byConfDesc DateCand.confidence)
      (collectDates now text) with
  | [] => ⟨now, 0⟩
  | c :: _ => ⟨c.value, c.confidence⟩

/-- The anchored tail of the item-line pattern: whitespace, optional dollar
sign, the amount group, end of line.  Returns the group. -/
def tryItemSuffix (cs : List Char) : Option (List Char) :=
  let w := takeWhileSplit isSpaceJS cs
  if w.1.isEmpty then none
  else
    let r2 : List Char :=
      match w.2 with
      | '$' :: t => t
      | _ => w.2
    let d := takeWhileSplit isDigitJS r2
    if d.1.isEmpty then none
    else
      match d.2 with
      | [] => some d.1
      | '.' :: r4 =>
        let f := takeWhileSplit isDigitJS r4
        if f.1.length ≤ 2 ∧ f.2 = [] then some (d.1 ++ '.' :: f.1)
        else none
      | _ => none

/-- The reluctant leading group of the item-line pattern: try split points
from the shortest, as the lazy quantifier does.  Returns the leading group
and the amount group. -/
def itemSplitAux (acc : List Char) : List Char → Option (List Char × List Char)
  | [] => none
  | c :: rest =>
    match tryItemSuffix rest with
    | some g2 => some (acc ++ [c], g2)
    | none => itemSplitAux (acc ++ [c]) rest

/-- The item-line pattern match on a trimmed line. -/
def tryItemLine (cs : List Char) : Option (List Char × List Char) :=
  itemSplitAux [] cs

/-- extractLineItems of ocrService: per line, match the item pattern, bound
the name length, reject total-like lines and out-of-range prices, keep at
most twenty items. -/
def extractLineItems (text : List Char) : List Item :=
  (((splitOnNL text).filterMap fun line =>
    let t := trimJS line
    match tryItemLine t with
    | some (g1, g2) =>
      if 2 < g1.length ∧ g1.length < 50 then
        let itemName := trimJS g1
        let price := parseFloatQ g2
        if !isLikelyTotalLine itemName ∧ 0 < price ∧ price < 1000 then
          some ⟨String.mk itemName, none, price,
                calculateItemConfidence itemName price⟩
        else none
      else none
    | none => none).take 20)

/-- The pattern-then-amount step of extractTaxAmount for one keyword.  The
code calls the string match method with a global regex, which returns the
list of full match strings without capture groups, and then reads index one:
the second full match, absent for a single match, and in any case a string
that starts with the keyword letter, so parseFloat on it is NaN. -/
def taxPatternHit (kw : List Char) (text : List Char) : Option ExtractedAmount :=
  let ms := scanAll (fun s => (tryKeyAmount kw s).map (fun t => (t.1, t.2.2))) text
  match ms with
  | [] => none
  | _ :: rest =>
    match parseFloatOpt rest.head? with
    | some a => if 0 < a ∧ a < 1000 then some ⟨a, mkRat 4 5⟩ else none
    | none => none

/-- extractTaxAmount of ocrService: try the tax, hst and gst patterns in
order, fall through to a zero result. -/
def extractTaxAmount (text : List Char) : ExtractedAmount :=
  match taxPatternHit ['t','a','x'] text with
  | some a => a
  | none =>
    match taxPatternHit ['h','s','t'] text with
    | some a => a
    | none =>
      match taxPatternHit ['g','s','t'] text with
      | some a => a
      | none => ⟨0, 0⟩

/-- The category keyword table of suggestCategory, in source order. -/
def categoryMappings : List (String × List (List Char)) :=
  [("groceries",
    [['w','a','l','m','a','r','t'], ['t','a','r','g','e','t'],
     ['k','r','o','g','e','r'], ['s','a','f','e','w','a','y'],
     ['w','h','o','l','e',' ','f','o','o','d','s'],
     ['c','o','s','t','c','o'], ['g','r','o','c','e','r','y']]),
   ("food & dining",
    [['m','c','d','o','n','a','l','d','s'],
     ['b','u','r','g','e','r',' ','k','i','n','g'],
     ['s','t','a','r','b','u','c','k','s'],
     ['r','e','s','t','a','u','r','a','n','t'],
     ['c','a','f','e'], ['p','i','z','z','a']]),
   ("transportation",
    [['s','h','e','l','l'], ['e','x','x','o','n'], ['b','p'],
     ['c','h','e','v','r','o','n'], ['g','a','s'], ['f','u','e','l'],
     ['u','b','e','r'], ['l','y','f','t']]),
   ("shopping",
    [['a','m','a','z','o','n'], ['m','a','l','l'],
     ['s','t','o','r','e'], ['r','e','t','a','i','l']]),
   ("healthcare",
    [['p','h','a','r','m','a','c','y'], ['c','v','s'],
     ['w','a','l','g','r','e','e','n','s'],
     ['h','o','s','p','i','t','a','l'], ['c','l','i','n','i','c']])]

/-- suggestCategory of ocrService. -/
def suggestCategory (text : List Char) : CategoryField :=
  match categoryMappings.find? (fun p => p.2.any fun kw => containsCI kw text) with
  | some p => ⟨p.1, mkRat 7 10⟩
  | none => ⟨"other", mkRat 3 10⟩

/-- The payment-method keyword table of extractPaymentMethod, in source
order. -/
def paymentMethods : List (String × List (List Char)) :=
  [("credit_card",
    [['c','r','e','d','i','t'], ['v','i','s','a'],
     ['m','a','s','t','e','r','c','a','r','d'], ['a','m','e','x']]),
   ("debit_card", [['d','e','b','i','t']]),
   ("cash", [['c','a','s','h'], ['c','h','a','n','g','e']]),
   ("digital_wallet",
    [['a','p','p','l','e',' ','p','a','y'],
     ['g','o','o','g','l','e',' ','p','a','y'],
     ['p','a','y','p','a','l']])]

/-- extractPaymentMethod of ocrService. -/
def extractPaymentMethod (text : List Char) : ExtractedStr :=
  match paymentMethods.find? (fun p => p.2.any fun kw => containsCI kw text) with
  | some p => ⟨p.1, mkRat 6 10⟩
  | none => ⟨"other", mkRat 1 10⟩

/-- getEmptyParsedData of ocrService; the date value is the wall clock. -/
def getEmptyParsedData (now : JSDate) : ParsedData :=
  { merchantName := ⟨"", 0⟩
    totalAmount := ⟨0, 0⟩
    date := ⟨now, 0⟩
    items := []
    taxAmount := ⟨0, 0⟩
    category := ⟨"other", 0⟩
    paymentMethod := ⟨"other", 0⟩
    subtotal := none }

/-- parseReceiptData of ocrService; the wall clock the date extractor reads
is passed explicitly. -/
def parseReceiptData (now : JSDate) (text : String) : ParsedData :=
  if text.data = [] ∨ (trimJS text.data).length = 0 then getEmptyParsedData now
  else
    { merchantName := extractMerchantName text.data
      totalAmount := extractTotalAmount text.data
      date := extractDate now text.data
      items := extractLineItems text.data
      taxAmount := extractTaxAmount text.data
      category := suggestCategory text.data
      paymentMethod := extractPaymentMethod text.data
      subtotal := none }

/-! ### geminiOCRService.js (vision tier) -/

/-- JS logical-or defaulting on an optional number: absent, null and zero are
falsy and take the default. -/
def jsOrQ (x : Option ℚ) (d : ℚ) : ℚ :=
  match x with
  | none => d
  | some v => if v = 0 then d else v

/-- JS logical-or defaulting on an optional string: absent, null and the
empty string are falsy and take the default. -/
def jsOrStr (x : Option String) (d : String) : String :=
  match x with
  | none => d
  | some s => if s = "" then d else s

/-- The date field of a model response as it stands after JSON parsing: the
value is absent or null (none), a non-empty string that the Date constructor
rejects (some none), or one it parses (some (some d)). -/
structure GeminiDate where
  value : Option (Option JSDate)
  confidence : Option ℚ
deriving DecidableEq, Repr

/-- An item of a model response. -/
structure GeminiItem where
  name : String
  price : ℚ
  quantity : ℚ
  confidence : ℚ
deriving DecidableEq, Repr

/-- A parsed model response: each top-level key may be absent. -/
structure GeminiData where
  merchantName : Option ExtractedStr
  totalAmount : Option ExtractedAmount
  date : Option GeminiDate
  items : Option (List GeminiItem)
  taxAmount : Option ExtractedAmount
  category : Option CategoryField
  paymentMethod : Option ExtractedStr
  subtotal : Option ExtractedAmount
  rawText : Option String
  confidence : Option ℚ
deriving DecidableEq, Repr

/-- parseGeminiResponse of geminiOCRService.  The JSON recovery itself (code
fence stripping, first balanced object, JSON parsing) is a host primitive,
abstracted as the parse outcome: some data when a JSON object was recovered,
none when not.  On failure the method returns the fixed fallback structure
with the raw response text attached; its top-level confidence is one tenth. -/
def parseGeminiResponse (responseText : String) (now : JSDate)
    (parsed : Option GeminiData) : GeminiData :=
  match parsed with
  | some d => d
  | none =>
    { merchantName := some ⟨"", 0⟩
      totalAmount := some ⟨0, 0⟩
      date := some ⟨some (some now), some 0⟩
      items := some []
      taxAmount := some ⟨0, 0⟩
      category := some ⟨"other", 0⟩
      paymentMethod := some ⟨"other", 0⟩
      subtotal := some ⟨0, 0⟩
      rawText := some responseText
      confidence := some (mkRat 1 10) }

/-- formatDateValue of geminiOCRService. -/
def formatDateValue (now : JSDate) (dateObj : Option GeminiDate) : ExtractedDate :=
  match dateObj with
  | none => ⟨now, 0⟩
  | some dobj =>
    match dobj.value with
    | none => ⟨now, 0⟩
    | some parsedVal => ⟨parsedVal.getD now, jsOrQ dobj.confidence 0⟩

/-- formatParsedData of geminiOCRService. -/
def formatParsedData (now : JSDate) (g : GeminiData) : ParsedData :=
  { merchantName := g.merchantName.getD ⟨"", 0⟩
    totalAmount := g.totalAmount.getD ⟨0, 0⟩
    date := formatDateValue now g.date
    items := (g.items.getD []).map fun it =>
      ⟨it.name, some it.quantity, it.price, it.confidence⟩
    taxAmount := g.taxAmount.getD ⟨0, 0⟩
    category := g.category.getD ⟨"other", 0⟩
    paymentMethod := g.paymentMethod.getD ⟨"other", 0⟩
    subtotal := some (g.subtotal.getD ⟨0, 0⟩) }

/-- getEmptyParsedData of geminiOCRService. -/
def geminiGetEmptyParsedData (now : JSDate) : ParsedData :=
  { merchantName := ⟨"", 0⟩
    totalAmount := ⟨0, 0⟩
    date := ⟨now, 0⟩
    items := []
    taxAmount := ⟨0, 0⟩
    category := ⟨"other", 0⟩
    paymentMethod := ⟨"other", 0⟩
    subtotal := none }

/-- An extraction result as the tiers return it.  The processing-time field
of the source is wall-clock bookkeeping and is not modelled. -/
structure OCRResult where
  success : Bool
  error : Option String
  extractedText : String
  parsedData : ParsedData
  confidence : ℚ
  method : String
deriving DecidableEq, Repr

/-- The effectful part of a vision-tier run: file reading or conversion or
the inference request raised (caught by the method), or a response text was
obtained whose JSON recovery succeeded or failed. -/
inductive GeminiOutcome where
  | ioError (msg : String)
  | response (text : String) (parsed : Option GeminiData)
deriving DecidableEq, Repr

/-- processReceipt of geminiOCRService: on any raise, a failure result; on a
response, success with the formatted data and the reported confidence
defaulted to four fifths when falsy. -/
def geminiProcessReceipt (available : Bool) (gout : GeminiOutcome)
    (now : JSDate) : OCRResult :=
  if available = false then
    { success := false, error := some "Gemini API not configured",
      extractedText := "", parsedData := geminiGetEmptyParsedData now,
      confidence := 0, method := "gemini" }
  else
    match gout with
    | .ioError msg =>
      { success := false, error := some msg, extractedText := "",
        parsedData := geminiGetEmptyParsedData now, confidence := 0,
        method := "gemini" }
    | .response text parsed =>
      let d := parseGeminiResponse text now parsed
      { success := true, error := none,
        extractedText := jsOrStr d.rawText "",
        parsedData := formatParsedData now d,
        confidence := jsOrQ d.confidence (mkRat 4 5),
        method := "gemini" }

/-! ### ocrService.js Tesseract tier and orchestrator -/

/-- The effectful part of a heuristic-tier run: file preparation, worker
start or recognition raised (caught by the method), or per-page recognition
succeeded with a text and an engine confidence on the zero-to-hundred
scale for each page. -/
inductive TesseractOutcome where
  | failure (msg : String)
  | pages (results : List (String × ℚ))
deriving DecidableEq, Repr

/-- processWithTesseract of ocrService: concatenate page texts with trailing
newlines, parse the combined text, average the page confidences and scale to
the unit interval; on any raise, a failure result that keeps the tesseract
method tag. -/
def processWithTesseract (file : TesseractOutcome) (now : JSDate) : OCRResult :=
  match file with
  | .failure msg =>
    { success := false, error := some msg, extractedText := "",
      parsedData := getEmptyParsedData now, confidence := 0,
      method := "tesseract" }
  | .pages results =>
    let combinedText := results.foldl (fun acc p => acc ++ p.1 ++ "\n") ""
    let parsedData := parseReceiptData now combinedText
    let avgConfidence : ℚ :=
      if 0 < results.length then
        (results.map Prod.snd).sum / (results.length : ℚ)
      else 0
    { success := true, error := none,
      extractedText := String.mk (trimJS combinedText.data),
      parsedData := parsedData,
      confidence := avgConfidence / 100,
      method := "tesseract" }

/-- The configured extraction method: the OCR method environment variable
defaulted to gemini when absent or empty. -/
def ocrMethodOf (envMethod : Option String) : String :=
  jsOrStr envMethod "gemini"

/-- The vision tier is configured and selected. -/
def visionSelected (envMethod : Option String) (available : Bool) : Prop :=
  ocrMethodOf envMethod = "gemini" ∧ available = true

instance (envMethod : Option String) (available : Bool) :
    Decidable (visionSelected envMethod available) :=
  inferInstanceAs (Decidable (_ ∧ _))

/-- processReceipt of ocrService, the orchestrator: when the vision tier is
selected and configured, run it first and accept its whole result exactly
when it succeeds with confidence above one half; otherwise run the heuristic
tier and use its whole result.  The outer exception handler of the source
(the error-method result) is unreachable here because both tier methods
catch their own raises. -/
def processReceipt (envMethod : Option String) (available : Bool)
    (gout : GeminiOutcome) (file : TesseractOutcome) (now : JSDate) : OCRResult :=
  if visionSelected envMethod available then
    let geminiResult := geminiProcessReceipt available gout now
    if geminiResult.success = true ∧ mkRat 1 2 < geminiResult.confidence then
      geminiResult
    else processWithTesseract file now
  else processWithTesseract file now

/-! ### receiptController.js and the Receipt schema -/

/-- The persisted fields of a receipt document the extraction lifecycle
touches. -/
structure ReceiptDoc where
  status : String
  processingAttempts : Nat
  lastProcessingError : Option String
  ocrExtractedText : String
  ocrConfidence : ℚ
  parsedData : ParsedData
deriving DecidableEq, Repr

/-- The status enum of the Receipt schema. -/
def statusEnum : List String := ["uploaded", "processing", "processed", "failed"]

/-- A confidence validator of the Receipt schema: minimum zero, maximum
one. -/
def validConfidence (q : ℚ) : Bool := decide (0 ≤ q ∧ q ≤ 1)

/-- The parsedData validators of the Receipt schema: every declared
confidence path, the item confidences included, carries the unit-interval
bounds.  The subtotal key and the item price key are not declared schema
paths and carry no validators. -/
def validParsedData (p : ParsedData) : Bool :=
  validConfidence p.merchantName.confidence &&
  validConfidence p.totalAmount.confidence &&
  validConfidence p.date.confidence &&
  p.items.all (fun it => validConfidence it.confidence) &&
  validConfidence p.taxAmount.confidence &&
  validConfidence p.category.confidence &&
  validConfidence p.paymentMethod.confidence

/-- The Receipt schema validators on the modelled fields: the status enum,
the attempts maximum of three, the unit-interval bound on the stored OCR
confidence and the parsedData confidence bounds. -/
def validReceiptDoc (r : ReceiptDoc) : Bool :=
  statusEnum.contains r.status &&
  r.processingAttempts ≤ 3 &&
  validConfidence r.ocrConfidence &&
  validParsedData r.parsedData

/-- A document save under the Receipt schema: a save whose candidate fails
one of the schema validators throws, leaving the persisted document
unchanged (the catch-path update of the controller also fails, by a cast
error on its malformed increment clause, so nothing else is written). -/
def saveDoc (persisted candidate : ReceiptDoc) : ReceiptDoc :=
  if validReceiptDoc candidate then candidate else persisted

/-- processReceiptOCR of receiptController on a completed extraction run:
set the status to processing, then on a successful result store it and set
the status to processed, and on a failure result record the error, increment
the attempts counter and set the status to failed. -/
def processReceiptOCR (db : ReceiptDoc) (res : OCRResult) : ReceiptDoc :=
  let r1 := saveDoc db { db with status := "processing" }
  if res.success then
    saveDoc r1 { r1 with
      status := "processed"
      ocrExtractedText := res.extractedText
      ocrConfidence := res.confidence
      parsedData := res.parsedData }
  else
    saveDoc r1 { r1 with
      status := "failed"
      lastProcessingError := some (jsOrStr res.error "OCR processing failed")
      processingAttempts := r1.processingAttempts + 1 }

/-- The parsedData reset literal of reprocessReceipt in the controller; the
date value is the wall clock. -/
def controllerEmptyParsedData (now : JSDate) : ParsedData :=
  { merchantName := ⟨"", 0⟩
    totalAmount := ⟨0, 0⟩
    date := ⟨now, 0⟩
    items := []
    taxAmount := ⟨0, 0⟩
    category := ⟨"other", 0⟩
    paymentMethod := ⟨"other", 0⟩
    subtotal := none }

/-- reprocessReceipt of receiptController, the state reset it saves before
re-running the pipeline: clear the stored extraction results and parsed
data, return the status to uploaded, zero the attempts counter and drop the
last error. -/
def reprocessReceipt (db : ReceiptDoc) (now : JSDate) : ReceiptDoc :=
  saveDoc db
    { db with
      ocrExtractedText := ""
      ocrConfidence := 0
      parsedData := controllerEmptyParsedData now
      status := "uploaded"
      processingAttempts := 0
      lastProcessingError := none }

/-! ### Shared sample values and helper lemmas -/

/-- A fixed processing time for concrete instances. -/
def now0 : JSDate := ⟨2024, 0, 1⟩

/-- A freshly uploaded receipt document. -/
def doc0 : ReceiptDoc := ⟨"uploaded", 0, none, "", 0, getEmptyParsedData now0⟩

/-- A parsed model response reporting high overall confidence. -/
def gdHigh : GeminiData :=
  { merchantName := none, totalAmount := none, date := none, items := none,
    taxAmount := none, category := none, paymentMethod := none,
    subtotal := none, rawText := some "sample", confidence := some (mkRat 9 10) }

/-- A parsed model response with no top-level confidence. -/
def gdNoConf : GeminiData :=
  { merchantName := none, totalAmount := none, date := none, items := none,
    taxAmount := none, category := none, paymentMethod := none,
    subtotal := none, rawText := some "sample", confidence := none }

/-- The heuristic-tier failure result on an unsupported file. -/
def failRes0 : OCRResult :=
  processWithTesseract (TesseractOutcome.failure "Unsupported file type: .txt") now0

/-- A successful vision-tier result. -/
def okRes0 : OCRResult :=
  geminiProcessReceipt true (GeminiOutcome.response "sample" (some gdHigh)) now0

/-- The head of the stable descending-confidence sort is a member of the list
and carries its maximal key. -/
theorem sortedHead_mem_max {α : Type} (key : α → ℚ) (l : List α) (c : α)
    (t : List α)
    (h : List.insertionSort (byConfDesc key) l = c :: t) :
    c ∈ l ∧ ∀ x ∈ l, key x ≤ key c := by
  have hperm := List.perm_insertionSort (byConfDesc key) l
  rw [h] at hperm
  refine ⟨hperm.mem_iff.mp (List.mem_cons_self c t), fun x hx => ?_⟩
  have hx2 : x ∈ c :: t := hperm.mem_iff.mpr hx
  rcases List.mem_cons.mp hx2 with hxc | hxt
  · rw [hxc]
  · have hs := List.sorted_insertionSort (byConfDesc key) l
    rw [h] at hs
    exact List.rel_of_sorted_cons hs x hxt

/-- Every candidate one amount pattern contributes lies strictly between
zero and ten thousand. -/
theorem mem_amountCandsOf_range {i : Nat} {ms : List (List Char × List Char)}
    {c : AmountCand} (h : c ∈ amountCandsOf i ms) :
    0 < c.value ∧ c.value < 10000 := by
  rcases List.mem_filterMap.mp h with ⟨m, _, heq⟩
  by_cases hp : 0 < parseFloatQ m.2 ∧ parseFloatQ m.2 < 10000
  · rw [if_pos hp] at heq
    cases heq
    exact hp
  · rw [if_neg hp] at heq
    cases heq

/-- Every candidate extractTotalAmount collects lies strictly between zero
and ten thousand. -/
theorem mem_collectAmounts_range {cs : List Char} {c : AmountCand}
    (h : c ∈ collectAmounts cs) : 0 < c.value ∧ c.value < 10000 := by
  unfold collectAmounts at h
  rcases List.mem_append.mp h with h | h4
  · rcases List.mem_append.mp h with h | h3
    · rcases List.mem_append.mp h with h | h2
      · rcases List.mem_append.mp h with h0 | h1
        · exact mem_amountCandsOf_range h0
        · exact mem_amountCandsOf_range h1
      · exact mem_amountCandsOf_range h2
    · exact mem_amountCandsOf_range h3
  · exact mem_amountCandsOf_range h4

/-- Date-pattern confidences are positive. -/
theorem calculateDateConfidence_pos (i : Nat) : 0 < calculateDateConfidence i := by
  unfold calculateDateConfidence
  split <;> norm_num

/-- Every candidate one date pattern contributes passed the plausibility
window and carries that pattern's confidence. -/
theorem mem_dateCandsOf {now : JSDate} {i : Nat} {ms : List (List Char)}
    {c : DateCand} (h : c ∈ dateCandsOf now i ms) :
    isReasonableDate now c.value = true ∧ c.confidence = calculateDateConfidence i := by
  rcases List.mem_filterMap.mp h with ⟨m, _, heq⟩
  rcases hp : parseDate m with _ | d
  · simp only [hp] at heq
    cases heq
  · simp only [hp] at heq
    by_cases hr : isReasonableDate now d = true
    · rw [if_pos hr] at heq
      cases heq
      exact ⟨hr, rfl⟩
    · rw [if_neg hr] at heq
      cases heq

/-- Every candidate extractDate collects passed the plausibility window and
has positive confidence. -/
theorem mem_collectDates {now : JSDate} {cs : List Char} {c : DateCand}
    (h : c ∈ collectDates now cs) :
    isReasonableDate now c.value = true ∧ 0 < c.confidence := by
  unfold collectDates at h
  rcases List.mem_append.mp h with h | h2
  · rcases List.mem_append.mp h with h0 | h1
    · rcases mem_dateCandsOf h0 with ⟨hr, hc⟩
      exact ⟨hr, hc ▸ calculateDateConfidence_pos 0⟩
    · rcases mem_dateCandsOf h1 with ⟨hr, hc⟩
      exact ⟨hr, hc ▸ calculateDateConfidence_pos 1⟩
  · rcases mem_dateCandsOf h2 with ⟨hr, hc⟩
    exact ⟨hr, hc ▸ calculateDateConfidence_pos 2⟩

/-! ### Claims -/

/-- Claim C1: tier selection in the orchestrator.  When the vision tier is
configured and selected it is invoked first, and its result is final if and
only if it reports success with overall confidence strictly above one half;
in every other case (unconfigured, failed, or confidence at or below the
threshold) the whole heuristic result is used, with no per-field merge. -/
theorem c1_processReceipt_tier_selection
    (envMethod : Option String) (available : Bool) (gout : GeminiOutcome)
    (file : TesseractOutcome) (now : JSDate) :
    (visionSelected envMethod available →
      (((geminiProcessReceipt available gout now).success = true ∧
          mkRat 1 2 < (geminiProcessReceipt available gout now).confidence) →
        processReceipt envMethod available gout file now =
          geminiProcessReceipt available gout now) ∧
      (¬ ((geminiProcessReceipt available gout now).success = true ∧
          mkRat 1 2 < (geminiProcessReceipt available gout now).confidence) →
        processReceipt envMethod available gout file now =
          processWithTesseract file now)) ∧
    (¬ visionSelected envMethod available →
      processReceipt envMethod available gout file now =
        processWithTesseract file now) := by
  refine ⟨fun hv => ⟨fun hacc => ?_, fun hacc => ?_⟩, fun hv => ?_⟩
  · simp only [processReceipt]
    rw [if_pos hv, if_pos hacc]
  · simp only [processReceipt]
    rw [if_pos hv, if_neg hacc]
  · simp only [processReceipt]
    rw [if_neg hv]

/-- Witness for C1: a configured, selected and accepted vision run is the
final result. -/
theorem c1_witness :
    processReceipt (some "gemini") true
        (GeminiOutcome.response "sample" (some gdHigh))
        (TesseractOutcome.failure "boom") now0 =
      geminiProcessReceipt true
        (GeminiOutcome.response "sample" (some gdHigh)) now0 :=
  ((c1_processReceipt_tier_selection (some "gemini") true
      (GeminiOutcome.response "sample" (some gdHigh))
      (TesseractOutcome.failure "boom") now0).1
    (by decide)).1 (by decide)

/-- Counterexample to claim C2 as stated: the heuristic tier produced a
result object (for an unsupported file type), yet the document status
becomes failed, not processed — tier failure is surfaced through the success
flag of the result object, not through an exception. -/
theorem c2_counterexample :
    (processReceiptOCR doc0 failRes0).status = "failed" ∧
    (processReceiptOCR doc0 failRes0).status ≠ "processed" := by decide

/-- Claim C2 as amended: the status becomes processed exactly when the
produced result object carries a true success flag and its confidences pass
the schema validators (overall confidence and every parsedData confidence
within the unit interval); a failure result object leads to the failed
status, and a successful result with out-of-range confidences makes the
save throw so the document stays at the processing status. -/
theorem c2_processed_iff_valid_success (db : ReceiptDoc) (res : OCRResult)
    (h : validReceiptDoc db = true) :
    (processReceiptOCR db res).status = "processed" ↔
      (res.success = true ∧ validConfidence res.confidence = true ∧
        validParsedData res.parsedData = true) := by
  have hnp : ("processing" : String) ≠ "processed" := by decide
  have hnf : ("failed" : String) ≠ "processed" := by decide
  simp only [validReceiptDoc, Bool.and_eq_true, decide_eq_true_eq] at h
  obtain ⟨⟨⟨hst, hat⟩, hoc⟩, hpd⟩ := h
  have hv1 : validReceiptDoc { db with status := "processing" } = true := by
    simp only [validReceiptDoc, Bool.and_eq_true, decide_eq_true_eq]
    exact ⟨⟨⟨rfl, hat⟩, hoc⟩, hpd⟩
  simp only [processReceiptOCR, saveDoc, hv1, if_true]
  by_cases hs : res.success = true
  · rw [if_pos hs]
    split
    · rename_i hv2
      simp only [validReceiptDoc, Bool.and_eq_true, decide_eq_true_eq] at hv2
      exact iff_of_true rfl ⟨hs, hv2.1.2, hv2.2⟩
    · rename_i hv2
      refine iff_of_false (fun hh => hnp hh) ?_
      rintro ⟨-, hc, hp⟩
      exact hv2 (by
        simp only [validReceiptDoc, Bool.and_eq_true, decide_eq_true_eq]
        exact ⟨⟨⟨rfl, hat⟩, hc⟩, hp⟩)
  · rw [if_neg hs]
    split
    · exact iff_of_false (fun hh => hnf hh) (fun hc => hs hc.1)
    · exact iff_of_false (fun hh => hnp hh) (fun hc => hs hc.1)

/-- Witness for C2 as amended: a successful vision result with in-range
confidences marks the fresh document processed. -/
theorem c2_witness :
    (processReceiptOCR doc0 okRes0).status = "processed" ↔
      (okRes0.success = true ∧ validConfidence okRes0.confidence = true ∧
        validParsedData okRes0.parsedData = true) :=
  c2_processed_iff_valid_success doc0 okRes0 (by decide)

/-- A save never raises the persisted attempts counter above the schema
maximum of three: a candidate passing validation satisfies the bound and a
rejected candidate leaves the persisted document. -/
theorem saveDoc_attempts_le (persisted candidate : ReceiptDoc)
    (h : persisted.processingAttempts ≤ 3) :
    (saveDoc persisted candidate).processingAttempts ≤ 3 := by
  unfold saveDoc
  by_cases hv : validReceiptDoc candidate = true
  · rw [if_pos hv]
    simp only [validReceiptDoc, Bool.and_eq_true, decide_eq_true_eq] at hv
    exact hv.1.1.2
  · rw [if_neg hv]
    exact h

/-- One automatic run keeps the attempts counter within the schema maximum
of three. -/
theorem processReceiptOCR_attempts_le (db : ReceiptDoc) (res : OCRResult)
    (h : db.processingAttempts ≤ 3) :
    (processReceiptOCR db res).processingAttempts ≤ 3 := by
  simp only [processReceiptOCR]
  by_cases hs : res.success = true
  · rw [if_pos hs]
    exact saveDoc_attempts_le _ _ (saveDoc_attempts_le _ _ h)
  · rw [if_neg hs]
    exact saveDoc_attempts_le _ _ (saveDoc_attempts_le _ _ h)

/-- Claim C3: across any sequence of automatic processing runs the recorded
attempts counter never exceeds three, and an explicit reprocess resets the
counter to zero, returns the status to uploaded and clears the stored
extraction data before re-running. -/
theorem c3_attempts_bound_and_reprocess_reset :
    (∀ (db : ReceiptDoc) (runs : List OCRResult),
      db.processingAttempts ≤ 3 →
      (runs.foldl processReceiptOCR db).processingAttempts ≤ 3) ∧
    (∀ (db : ReceiptDoc) (now : JSDate),
      (reprocessReceipt db now).processingAttempts = 0 ∧
      (reprocessReceipt db now).status = "uploaded" ∧
      (reprocessReceipt db now).parsedData = controllerEmptyParsedData now ∧
      (reprocessReceipt db now).ocrExtractedText = "" ∧
      (reprocessReceipt db now).ocrConfidence = 0 ∧
      (reprocessReceipt db now).lastProcessingError = none) := by
  constructor
  · intro db runs
    induction runs generalizing db with
    | nil => intro h; exact h
    | cons r rs ih =>
      intro h
      exact ih _ (processReceiptOCR_attempts_le db r h)
  · intro db now
    have hv : validReceiptDoc
        { db with
          ocrExtractedText := ""
          ocrConfidence := 0
          parsedData := controllerEmptyParsedData now
          status := "uploaded"
          processingAttempts := 0
          lastProcessingError := none } = true := rfl
    unfold reprocessReceipt saveDoc
    rw [if_pos hv]
    exact ⟨rfl, rfl, rfl, rfl, rfl, rfl⟩

/-- Witness for C3: four consecutive failing automatic runs on a fresh
document stay within the attempts bound. -/
theorem c3_witness :
    (([failRes0, failRes0, failRes0, failRes0].foldl
        processReceiptOCR doc0).processingAttempts ≤ 3) :=
  c3_attempts_bound_and_reprocess_reset.1 doc0
    [failRes0, failRes0, failRes0, failRes0] (by decide)

/-- Claim C4: on the canonical input the total-amount recognizer returns the
value forty-five point six seven with confidence one, which exceeds the
claimed bound of seven tenths; in general every returned candidate lies
strictly between zero and ten thousand, the candidate of highest computed
confidence is selected, and a zero result is returned when no candidate
exists. -/
theorem c4_extractTotalAmount_selection :
    (extractTotalAmount ("Total: $45.67".data) = ⟨mkRat 4567 100, 1⟩ ∧
      mkRat 7 10 < (1 : ℚ)) ∧
    (∀ text : List Char,
      (collectAmounts text = [] ∧ extractTotalAmount text = ⟨0, 0⟩) ∨
      (∃ c ∈ collectAmounts text,
        extractTotalAmount text = ⟨c.value, c.confidence⟩ ∧
        0 < c.value ∧ c.value < 10000 ∧
        ∀ x ∈ collectAmounts text, x.confidence ≤ c.confidence)) := by
  constructor
  · exact ⟨by decide, by decide⟩
  · intro text
    rcases hs : List.insertionSort (byConfDesc AmountCand.confidence)
        (collectAmounts text) with _ | ⟨c, t⟩
    · left
      have hp := List.perm_insertionSort (byConfDesc AmountCand.confidence)
        (collectAmounts text)
      rw [hs] at hp
      refine ⟨List.Perm.eq_nil hp.symm, ?_⟩
      unfold extractTotalAmount
      rw [hs]
    · right
      obtain ⟨hmem, hmax⟩ := sortedHead_mem_max AmountCand.confidence _ c t hs
      have hrange := mem_collectAmounts_range hmem
      refine ⟨c, hmem, ?_, hrange.1, hrange.2, hmax⟩
      unfold extractTotalAmount
      rw [hs]

/-- Claim C5: the date recognizer returns the fifteenth of January 2024 with
positive confidence whenever that date passes the plausibility window at the
processing time; at a processing time more than a year later (about four
hundred days) the syntactic match is discarded and the current date is
returned with zero confidence; in general every candidate passed the window,
the candidate of highest confidence is selected, and with no plausible
candidate the current date is returned with zero confidence. -/
theorem c5_extractDate_window :
    (∀ now : JSDate, isReasonableDate now ⟨2024, 0, 15⟩ = true →
      extractDate now ("01/15/2024".data) = ⟨⟨2024, 0, 15⟩, mkRat 7 10⟩ ∧
        (0 : ℚ) < mkRat 7 10) ∧
    extractDate ⟨2025, 2, 1⟩ ("01/15/2024".data) = ⟨⟨2025, 2, 1⟩, 0⟩ ∧
    (∀ (now : JSDate) (text : List Char),
      (collectDates now text = [] ∧ extractDate now text = ⟨now, 0⟩) ∨
      (∃ c ∈ collectDates now text,
        extractDate now text = ⟨c.value, c.confidence⟩ ∧
        isReasonableDate now c.value = true ∧ 0 < c.confidence ∧
        ∀ x ∈ collectDates now text, x.confidence ≤ c.confidence)) := by
  refine ⟨?_, by decide, ?_⟩
  · intro now h
    have h1 : collectDates now ("01/15/2024".data) =
        [⟨⟨2024, 0, 15⟩, mkRat 7 10⟩] := by
      unfold collectDates
      rw [show scanAll tryD1 ("01/15/2024".data) = [("01/15/2024".data)] from
            by decide,
          show scanAll tryD2 ("01/15/2024".data) = ([] : List (List Char)) from
            by decide,
          show scanAll tryD3 ("01/15/2024".data) = ([] : List (List Char)) from
            by decide]
      unfold dateCandsOf
      simp only [List.filterMap_nil, List.filterMap_cons, List.append_nil]
      rw [show parseDate ("01/15/2024".data) = some ⟨2024, 0, 15⟩ from by decide]
      simp only [h, if_true]
      decide
    refine ⟨?_, by decide⟩
    unfold extractDate
    rw [h1]
    rfl
  · intro now text
    rcases hs : List.insertionSort (byConfDesc DateCand.confidence)
        (collectDates now text) with _ | ⟨c, t⟩
    · left
      have hp := List.perm_insertionSort (byConfDesc DateCand.confidence)
        (collectDates now text)
      rw [hs] at hp
      refine ⟨List.Perm.eq_nil hp.symm, ?_⟩
      unfold extractDate
      rw [hs]
    · right
      obtain ⟨hmem, hmax⟩ := sortedHead_mem_max DateCand.confidence _ c t hs
      have hwin := mem_collectDates hmem
      refine ⟨c, hmem, ?_, hwin.1, hwin.2, hmax⟩
      unfold extractDate
      rw [hs]

/-- Witness for C5: at a processing time of the first of January 2024 the
matched date is inside the window and is returned with its confidence. -/
theorem c5_witness :
    extractDate now0 ("01/15/2024".data) = ⟨⟨2024, 0, 15⟩, mkRat 7 10⟩ :=
  (c5_extractDate_window.1 now0 (by decide)).1

/-- Claim C6 concerns a code bug: on a single well-formed tax line the
pattern does match (first conjunct), yet the extractor returns the zero
result (second conjunct) instead of the amount with fixed confidence,
because the string match method is called with a global regex, whose result
array holds full match strings and no capture groups; index one is the
absent second match and parseFloat of it is NaN. -/
theorem c6_extractTaxAmount_bug :
    scanAll (fun s => (tryKeyAmount ['t','a','x'] s).map (fun t => (t.1, t.2.2)))
        ("Tax: $5.00".data) = [("Tax: $5.00".data)] ∧
    extractTaxAmount ("Tax: $5.00".data) = ⟨0, 0⟩ := by
  constructor <;> decide

/-- Counterexample to claim C7 as stated: for an un-decodable input handled
by the heuristic tier the returned result keeps the method tag of that tier,
not the error tag. -/
theorem c7_counterexample :
    (processReceipt none false (GeminiOutcome.ioError "io")
        (TesseractOutcome.failure "Unsupported file type: .xyz") now0).method =
      "tesseract" ∧
    (processReceipt none false (GeminiOutcome.ioError "io")
        (TesseractOutcome.failure "Unsupported file type: .xyz") now0).method ≠
      "error" := by
  decide

/-- Claim C7 as amended: on an un-decodable, corrupted or unsupported file
the pipeline raises no exception and returns a failure result with success
false, zero confidence and the error message attached, but its method field
names the heuristic tier rather than the error tag (the error tag is only
produced by the outer handler, which the per-tier handlers make
unreachable). -/
theorem c7_heuristic_failure_result
    (envMethod : Option String) (available : Bool) (gout : GeminiOutcome)
    (now : JSDate) (msg : String)
    (h : ¬ (visionSelected envMethod available ∧
            (geminiProcessReceipt available gout now).success = true ∧
            mkRat 1 2 < (geminiProcessReceipt available gout now).confidence)) :
    (processReceipt envMethod available gout
        (TesseractOutcome.failure msg) now).success = false ∧
    (processReceipt envMethod available gout
        (TesseractOutcome.failure msg) now).confidence = 0 ∧
    (processReceipt envMethod available gout
        (TesseractOutcome.failure msg) now).error = some msg ∧
    (processReceipt envMethod available gout
        (TesseractOutcome.failure msg) now).method = "tesseract" := by
  have ht : processReceipt envMethod available gout
      (TesseractOutcome.failure msg) now =
      processWithTesseract (TesseractOutcome.failure msg) now := by
    simp only [processReceipt]
    by_cases hv : visionSelected envMethod available
    · rw [if_pos hv, if_neg (fun hacc => h ⟨hv, hacc⟩)]
    · rw [if_neg hv]
  rw [ht]
  exact ⟨rfl, rfl, rfl, rfl⟩

/-- Witness for C7 as amended: with the vision tier unconfigured, an
unsupported file yields the heuristic failure result. -/
theorem c7_witness :
    (processReceipt none false (GeminiOutcome.ioError "io")
        (TesseractOutcome.failure "bad file") now0).success = false ∧
    (processReceipt none false (GeminiOutcome.ioError "io")
        (TesseractOutcome.failure "bad file") now0).confidence = 0 ∧
    (processReceipt none false (GeminiOutcome.ioError "io")
        (TesseractOutcome.failure "bad file") now0).error = some "bad file" ∧
    (processReceipt none false (GeminiOutcome.ioError "io")
        (TesseractOutcome.failure "bad file") now0).method = "tesseract" :=
  c7_heuristic_failure_result none false (GeminiOutcome.ioError "io") now0
    "bad file" (by decide)

/-- Counterexample to claim C8 as stated: on an unparseable model response
the overall confidence of the primary-extractor result is one tenth, not
zero. -/
theorem c8_counterexample :
    (geminiProcessReceipt true (GeminiOutcome.response "no json" none)
        now0).confidence = mkRat 1 10 ∧
    (geminiProcessReceipt true (GeminiOutcome.response "no json" none)
        now0).confidence ≠ 0 := by
  decide

/-- Claim C8 as amended: on a model response from which no JSON object can
be recovered the primary extractor does not raise; every field of the
formatted fallback has confidence zero and the items are empty, the result
reports success, and its overall confidence is one tenth (a non-zero floor
that still falls below the orchestrator acceptance threshold). -/
theorem c8_parse_failure_fallback (text : String) (now : JSDate) :
    ((formatParsedData now (parseGeminiResponse text now none)).merchantName.confidence = 0 ∧
     (formatParsedData now (parseGeminiResponse text now none)).totalAmount.confidence = 0 ∧
     (formatParsedData now (parseGeminiResponse text now none)).date.confidence = 0 ∧
     (formatParsedData now (parseGeminiResponse text now none)).items = [] ∧
     (formatParsedData now (parseGeminiResponse text now none)).taxAmount.confidence = 0 ∧
     (formatParsedData now (parseGeminiResponse text now none)).category.confidence = 0 ∧
     (formatParsedData now (parseGeminiResponse text now none)).paymentMethod.confidence = 0) ∧
    (geminiProcessReceipt true (GeminiOutcome.response text none) now).success = true ∧
    (geminiProcessReceipt true (GeminiOutcome.response text none) now).confidence =
      mkRat 1 10 := by
  exact ⟨⟨rfl, rfl, rfl, rfl, rfl, rfl, rfl⟩, rfl, rfl⟩

/-- Claim C9 as stated fails: the heuristic text parser reads the processing
clock through the date recognizer, so two runs on the same text at different
times differ on the date field (the window check flips from acceptance to
rejection and the fallback value is the clock itself). -/
theorem c9_counterexample :
    (parseReceiptData ⟨2024, 1, 1⟩ "01/15/2024").date ≠
    (parseReceiptData ⟨2026, 5, 1⟩ "01/15/2024").date := by
  decide

/-- Claim C9 as amended: the heuristic text parser is a pure function of the
input text and the processing time; every field except the date is a
function of the text alone, so only the date field can differ between runs
at different times. -/
theorem c9_pure_except_date (n1 n2 : JSDate) (text : String) :
    (parseReceiptData n1 text).merchantName = (parseReceiptData n2 text).merchantName ∧
    (parseReceiptData n1 text).totalAmount = (parseReceiptData n2 text).totalAmount ∧
    (parseReceiptData n1 text).items = (parseReceiptData n2 text).items ∧
    (parseReceiptData n1 text).taxAmount = (parseReceiptData n2 text).taxAmount ∧
    (parseReceiptData n1 text).category = (parseReceiptData n2 text).category ∧
    (parseReceiptData n1 text).paymentMethod = (parseReceiptData n2 text).paymentMethod ∧
    (parseReceiptData n1 text).subtotal = (parseReceiptData n2 text).subtotal := by
  by_cases hc : text.data = [] ∨ (trimJS text.data).length = 0
  · simp only [parseReceiptData, if_pos hc]
    refine ⟨?_, ?_, ?_, ?_, ?_, ?_, ?_⟩ <;> rfl
  · simp only [parseReceiptData, if_neg hc]
    refine ⟨?_, ?_, ?_, ?_, ?_, ?_, ?_⟩ <;> first | rfl | trivial

/-- Claim C10: a successfully parsed vision response whose top-level
confidence is absent, null or zero is given the default overall confidence
of four fifths and reported as success, so the orchestrator accepts it as
final whatever the heuristic tier would have produced, and the accepted
method is the vision tag. -/
theorem c10_default_confidence_accepted
    (envMethod : Option String) (d : GeminiData) (text : String)
    (file : TesseractOutcome) (now : JSDate)
    (hconf : d.confidence = none ∨ d.confidence = some 0)
    (hsel : visionSelected envMethod true) :
    (geminiProcessReceipt true (GeminiOutcome.response text (some d)) now).success = true ∧
    (geminiProcessReceipt true (GeminiOutcome.response text (some d)) now).confidence =
      mkRat 4 5 ∧
    processReceipt envMethod true (GeminiOutcome.response text (some d)) file now =
      geminiProcessReceipt true (GeminiOutcome.response text (some d)) now ∧
    (processReceipt envMethod true (GeminiOutcome.response text (some d)) file now).method =
      "gemini" := by
  have hsucc : (geminiProcessReceipt true
      (GeminiOutcome.response text (some d)) now).success = true := rfl
  have hc : (geminiProcessReceipt true
      (GeminiOutcome.response text (some d)) now).confidence = mkRat 4 5 := by
    show jsOrQ (parseGeminiResponse text now (some d)).confidence (mkRat 4 5) = mkRat 4 5
    rcases hconf with h | h <;> simp [parseGeminiResponse, jsOrQ, h]
  have hp : processReceipt envMethod true
      (GeminiOutcome.response text (some d)) file now =
      geminiProcessReceipt true (GeminiOutcome.response text (some d)) now := by
    simp only [processReceipt]
    rw [if_pos hsel, if_pos ⟨hsucc, by rw [hc]; decide⟩]
  refine ⟨hsucc, hc, hp, ?_⟩
  rw [hp]
  exact rfl

/-- Witness for C10: a parsed response with no reported confidence is
accepted as the final result. -/
theorem c10_witness :
    processReceipt (some "gemini") true
        (GeminiOutcome.response "sample" (some gdNoConf))
        (TesseractOutcome.failure "boom") now0 =
      geminiProcessReceipt true
        (GeminiOutcome.response "sample" (some gdNoConf)) now0 :=
  (c10_default_confidence_accepted (some "gemini") gdNoConf "sample"
    (TesseractOutcome.failure "boom") now0 (Or.inl (by decide))
    (by decide)).2.2.1

end PFA
